import Mathlib

/-!
# Verification of the Cloud_LLM multi-language syntax-element classifier

A shallow embedding of `Multi_language_parser/File_parser.py` (class
`RepoElementParser`) and `Multi_language_parser/language_build.py`
(`get_parser`), together with proofs about the classification pipeline:
pass 1 (`_collect_class_names`), pass 2 (`_extract_elements` with the
predicates `_is_docstring`, `_is_std_lib_identifier`, `_is_variable`),
the per-file driver `parse_file`, and the aggregation loop of
`analyze_repo`.

Syntax trees coming from the external tree-sitter parsers are modelled as
rose trees carrying a node type, the node's source text (already decoded),
and an ordered list of children.  The Python code walks trees using parent
back-references (`node.parent`, `node.parent.parent`) and compares sibling
nodes by identity; the embedding threads an explicit ancestor context
`List (Nat × Node)` — innermost first, each entry pairing the index of the
child on the path inside that ancestor with the ancestor itself — so
identity of a node among its siblings becomes equality of positions.
-/

set_option maxHeartbeats 1600000

namespace CloudLLM

/-- A syntax-tree node as exposed by the tree-sitter binding: a grammar
type tag, the covered source text (`text.decode('utf8')` in the Python
code), and the ordered children. -/
inductive Node where
  | mk (ty : String) (text : String) (children : List Node)
deriving Repr

mutual

/-- Structural decidable equality of nodes. -/
def nodeDecEq : (a b : Node) → Decidable (a = b)
  | .mk t1 x1 c1, .mk t2 x2 c2 =>
    match String.decEq t1 t2 with
    | .isFalse h => .isFalse (fun hc => h (Node.mk.inj hc).1)
    | .isTrue h1 =>
      match String.decEq x1 x2 with
      | .isFalse h => .isFalse (fun hc => h (Node.mk.inj hc).2.1)
      | .isTrue h2 =>
        match nodeListDecEq c1 c2 with
        | .isFalse h => .isFalse (fun hc => h (Node.mk.inj hc).2.2)
        | .isTrue h3 => .isTrue (by rw [h1, h2, h3])

/-- Structural decidable equality of node lists. -/
def nodeListDecEq : (a b : List Node) → Decidable (a = b)
  | [], [] => .isTrue rfl
  | [], _ :: _ => .isFalse (fun h => List.noConfusion h)
  | _ :: _, [] => .isFalse (fun h => List.noConfusion h)
  | a :: as, b :: bs =>
    match nodeDecEq a b with
    | .isFalse h => .isFalse (fun hc => h (List.cons.inj hc).1)
    | .isTrue h1 =>
      match nodeListDecEq as bs with
      | .isFalse h => .isFalse (fun hc => h (List.cons.inj hc).2)
      | .isTrue h2 => .isTrue (by rw [h1, h2])

end

instance : DecidableEq Node := nodeDecEq

/-- The grammar type tag of a node (`node.type`). -/
def Node.type : Node → String
  | .mk t _ _ => t

/-- The decoded source text of a node (`node.text.decode('utf8')`). -/
def Node.text : Node → String
  | .mk _ s _ => s

/-- The ordered children of a node (`node.children`). -/
def Node.children : Node → List Node
  | .mk _ _ c => c

@[simp] theorem Node.type_mk (t s : String) (c : List Node) : (Node.mk t s c).type = t := rfl

@[simp] theorem Node.text_mk (t s : String) (c : List Node) : (Node.mk t s c).text = s := rfl

@[simp] theorem Node.children_mk (t s : String) (c : List Node) :
    (Node.mk t s c).children = c := rfl

/-- Ancestor context of a node during traversal, innermost first: the head
`(i, p)` says the current node is child number `i` of its parent `p`; the
next entry locates `p` inside its own parent, and so on up to the walked
root. -/
abbrev Ctx := List (Nat × Node)

/-! ## Python string primitives used by `_extract_elements` -/

/-- The whitespace characters stripped by Python's `str.strip()`. -/
def pyWhitespace : List Char := [' ', '\t', '\n', '\r', Char.ofNat 11, Char.ofNat 12]

/-- Core of `s.strip(chars)` / `s.lstrip(chars)`: drop the given characters
from the front of a character list. -/
def dropChars (cs : List Char) (l : List Char) : List Char :=
  l.dropWhile (fun c => cs.contains c)

/-- Python `s.strip(chars)`: remove all leading and trailing characters
drawn from `cs`. -/
def pyStripChars (cs : List Char) (s : String) : String :=
  ⟨(dropChars cs ((dropChars cs s.toList).reverse)).reverse⟩

/-- Python `s.lstrip(chars)`: remove all leading characters drawn from `cs`. -/
def pyLstripChars (cs : List Char) (s : String) : String :=
  ⟨dropChars cs s.toList⟩

/-- Python `node_text.strip('"\'')` from the string-literal branch: strip quote
delimiters from both ends. -/
def stripQuotes (s : String) : String :=
  pyStripChars ['"', '\''] s

/-- Python `node_text.lstrip('#').strip()` from the comment branch: strip leading
hash marks, then surrounding whitespace. -/
def stripComment (s : String) : String :=
  pyStripChars pyWhitespace (pyLstripChars ['#'] s)

/-! ## Configuration tables of `RepoElementParser` -/

/-- The denylist `self.std_lib_identifiers` of built-in/standard-library
names, verbatim from `RepoElementParser.__init__` (the Python literal is a
set; duplicated entries collapse). -/
def std_lib_identifiers : List String :=
  ["cout", "endl", "cin", "cerr", "clog",
   "string", "vector", "map", "set", "list",
   "make_unique", "make_shared", "unique_ptr", "shared_ptr",
   "cout", "endl", "cin", "cerr", "clog",
   "printf", "scanf", "malloc", "free", "NULL",
   "stdout", "stdin", "stderr",
   "print", "input", "range", "len", "str", "int", "float",
   "list", "dict", "set", "tuple",
   "console", "document", "window", "require", "module",
   "exports", "import", "from", "as"]

/-- Models `RepoElementParser._is_std_lib_identifier`. -/
def is_std_lib_identifier (name : String) : Bool :=
  std_lib_identifiers.contains name

/-- The reserved names excluded from `identifiers` and from `_is_variable`:
`('__name__', '__main__', '__file__', 'this', 'super')`. -/
def reservedNames : List String :=
  ["__name__", "__main__", "__file__", "this", "super"]

/-! ## Pass 1: `_collect_class_names` -/

mutual

/-- Models `RepoElementParser._collect_class_names`: pre-order collection of
declared class/struct names.  For `class_definition`/`class_declaration`
the first child of type `identifier` supplies the name; for
`class_specifier`/`struct_specifier` the first child of type
`type_identifier`; a declaration with no such child contributes nothing.
No denylist filtering is applied in this pass. -/
def collectClassNames (n : Node) : Finset String :=
  match n with
  | .mk ty _ ch =>
    let own : Finset String :=
      if ty = "class_definition" ∨ ty = "class_declaration" then
        match ch.find? (fun c => c.type == "identifier") with
        | some c => {c.text}
        | none => ∅
      else if ty = "class_specifier" ∨ ty = "struct_specifier" then
        match ch.find? (fun c => c.type == "type_identifier") with
        | some c => {c.text}
        | none => ∅
      else ∅
    own ∪ collectClassNamesList ch

/-- Class-name collection over a list of sibling subtrees. -/
def collectClassNamesList (l : List Node) : Finset String :=
  match l with
  | [] => ∅
  | c :: rest => collectClassNames c ∪ collectClassNamesList rest

end

/-! ## Pass 2 predicates: `_is_docstring` and `_is_variable` -/

/-- The parent of the current node, read off the ancestor context
(`node.parent`). -/
def parentNode (ctx : Ctx) : Option Node :=
  ctx.head?.map (fun e => e.2)

/-- The grandparent of the current node (`node.parent.parent`). -/
def grandNode (ctx : Ctx) : Option Node :=
  (ctx.drop 1).head?.map (fun e => e.2)

/-- Evaluates `node.parent and node.parent.type == t` on an optional node. -/
def optTypeIs : Option Node → String → Bool
  | some n, t => n.type == t
  | none, _ => false

/-- Evaluates `node.parent and node.parent.type in ts` on an optional node. -/
def optTypeMem : Option Node → List String → Bool
  | some n, ts => ts.contains n.type
  | none, _ => false

/-- Index of the first child that is not a comment, mirroring the loop
`for child in parent.children: if child.type not in ('comment',
'line_comment'): return child == node` — the loop stops at the first
non-comment child, and node identity among siblings is position. -/
def firstNonCommentIdx (children : List Node) : Option Nat :=
  children.findIdx? (fun c => !(c.type == "comment" || c.type == "line_comment"))

/-- Models `RepoElementParser._is_docstring`, applied in the source to
`node.parent` of a string node: `p` is that argument node and `pctx` its
ancestor context.  True iff `p` is an `expression_statement` whose parent
is a `module`, or a `block` whose own parent is a
`class_definition`/`function_definition`, and `p` is the first non-comment
child of that parent. -/
def is_docstring (p : Node) (pctx : Ctx) : Bool :=
  if p.type ≠ "expression_statement" then false
  else
    match pctx with
    | [] => false
    | (pIdx, g) :: rest =>
      if g.type = "module" then
        firstNonCommentIdx g.children == some pIdx
      else if g.type = "block" then
        match rest with
        | [] => false
        | (_, gg) :: _ =>
          if gg.type = "class_definition" ∨ gg.type = "function_definition" then
            firstNonCommentIdx g.children == some pIdx
          else false
      else false

/-- Tests whether `p` is a `block` containing a child of type `t`
(`node.parent.type == 'block' and any(child.type == t for child in
node.parent.children)`). -/
def blockWithChild (p? : Option Node) (t : String) : Bool :=
  match p? with
  | some p => p.type == "block" && p.children.any (fun c => c.type == t)
  | none => false

/-- Models `RepoElementParser._is_variable`: decides whether an identifier node is
recorded as a variable, following the source's sequence of early returns. -/
def is_variable (n : Node) (ctx : Ctx) (class_names : Finset String) : Bool :=
  if n.type ≠ "identifier" then false
  else
    let name := n.text
    if is_std_lib_identifier name then false
    else if name ∈ class_names then false
    else if optTypeMem (parentNode ctx)
        ["function_definition", "class_definition", "constructor_declaration",
         "constructor_or_destructor_definition"] then false
    else if optTypeIs (parentNode ctx) "call" then false
    else if optTypeMem (parentNode ctx) ["import_statement", "import_from_statement"] then false
    else if reservedNames.contains name then false
    else if optTypeIs (parentNode ctx) "method_definition" then false
    else if optTypeIs (parentNode ctx) "function_definition" then false
    else if optTypeIs (parentNode ctx) "class_definition" then false
    else if optTypeIs (grandNode ctx) "class_definition"
        && blockWithChild (parentNode ctx) "method_definition" then false
    else if optTypeIs (grandNode ctx) "function_definition"
        && blockWithChild (parentNode ctx) "method_definition" then false
    else if optTypeIs (grandNode ctx) "class_definition"
        && blockWithChild (parentNode ctx) "function_definition" then false
    else true

/-! ## The per-file element buckets -/

/-- The bucket dict `self.elements`: the seven classification buckets.  The Python dict
holds `set`s for names (modelled as `Finset String`) and lists for
sequence-valued buckets. -/
structure Elements where
  identifiers : Finset String
  literals : List String
  vars : Finset String
  comments : List String
  docstrings : List String
  functions : Finset String
  classes : Finset String
deriving DecidableEq

/-- The freshly initialised bucket dict (all sets empty, all lists empty). -/
def emptyElements : Elements :=
  ⟨∅, [], ∅, [], [], ∅, ∅⟩

/-! ## Pass 2: `_extract_elements` -/

/-- The class-declaration block at the top of `_extract_elements` (lines
164–183): for class-like nodes, take the first child of the appropriate
name type; add its text to `classes` and `identifiers` unless denylisted. -/
def classBlockStep (n : Node) (st : Elements) : Elements :=
  if n.type = "class_definition" ∨ n.type = "class_declaration" then
    match n.children.find? (fun c => c.type == "identifier") with
    | some c =>
      if is_std_lib_identifier c.text then st
      else { st with classes := insert c.text st.classes,
                     identifiers := insert c.text st.identifiers }
    | none => st
  else if n.type = "class_specifier" ∨ n.type = "struct_specifier" then
    match n.children.find? (fun c => c.type == "type_identifier") with
    | some c =>
      if is_std_lib_identifier c.text then st
      else { st with classes := insert c.text st.classes,
                     identifiers := insert c.text st.identifiers }
    | none => st
  else st

/-- The `if node_type == 'identifier' ... elif ...` chain of
`_extract_elements` (lines 186–212).  The only failure point is a string
node with no parent: the source calls `self._is_docstring(node.parent)`
with `node.parent = None`, raising `AttributeError`; the error carries the
bucket state at the moment of the exception (the mutated `self.elements`). -/
def chainStep (n : Node) (ctx : Ctx) (class_names : Finset String) (st : Elements) :
    Except (String × Elements) Elements :=
  if n.type = "identifier" then
    let name := n.text
    if is_std_lib_identifier name then .ok st
    else
      let st1 := if reservedNames.contains name then st
                 else { st with identifiers := insert name st.identifiers }
      if is_variable n ctx class_names then
        .ok { st1 with vars := insert name st1.vars }
      else .ok st1
  else if n.type = "string_literal" ∨ n.type = "string" then
    let text := stripQuotes n.text
    if text = "" then .ok st
    else
      match ctx with
      | [] => .error ("AttributeError: 'NoneType' object has no attribute 'type'", st)
      | (_, p) :: rest =>
        if is_docstring p rest then .ok { st with docstrings := st.docstrings ++ [text] }
        else .ok { st with literals := st.literals ++ [text] }
  else if n.type = "number_literal" ∨ n.type = "integer" ∨ n.type = "float" then
    .ok { st with literals := st.literals ++ [n.text] }
  else if n.type = "comment" ∨ n.type = "line_comment" then
    .ok { st with comments := st.comments ++ [stripComment n.text] }
  else if n.type = "function_definition" ∨ n.type = "constructor_declaration" ∨
      n.type = "constructor_or_destructor_definition" ∨ n.type = "method_definition" then
    match n.children.find? (fun c => c.type == "identifier") with
    | some c =>
      if is_std_lib_identifier c.text ∨ c.text = "__init__" then .ok st
      else .ok { st with functions := insert c.text st.functions,
                         identifiers := insert c.text st.identifiers }
    | none => .ok st
  else .ok st

/-- One node's worth of `_extract_elements`: the class block followed by
the classification chain, before recursing into children. -/
def extractStep (n : Node) (ctx : Ctx) (class_names : Finset String) (st : Elements) :
    Except (String × Elements) Elements :=
  chainStep n ctx class_names (classBlockStep n st)

mutual

/-- Models `RepoElementParser._extract_elements`: classify the node, then recurse
into its children in order, extending the ancestor context. -/
def extractElements (n : Node) (ctx : Ctx) (class_names : Finset String) (st : Elements) :
    Except (String × Elements) Elements :=
  match extractStep n ctx class_names st with
  | .error e => .error e
  | .ok st1 =>
    match n with
    | .mk _ _ ch => extractChildren ch 0 n ctx class_names st1

/-- The `for child in node.children` loop of `_extract_elements`: `i` is
the position of the next child inside `par`. -/
def extractChildren (l : List Node) (i : Nat) (par : Node) (ctx : Ctx)
    (class_names : Finset String) (st : Elements) :
    Except (String × Elements) Elements :=
  match l with
  | [] => .ok st
  | c :: rest =>
    match extractElements c ((i, par) :: ctx) class_names st with
    | .error e => .error e
    | .ok st2 => extractChildren rest (i + 1) par ctx class_names st2

end

/-- The invocation of pass 1 and pass 2 made by `parse_file` for one
tree: collect class names from the root, then extract elements starting
from the root with the fresh bucket state. -/
def extractResult (root : Node) : Except (String × Elements) Elements :=
  extractElements root [] (collectClassNames root) emptyElements

/-- Decidable equality of fallible results, used to state concrete
evaluations of the embedded functions. -/
instance {e a : Type} [DecidableEq e] [DecidableEq a] : DecidableEq (Except e a) := fun
  | .ok x, .ok y =>
    if h : x = y then .isTrue (by rw [h]) else .isFalse (fun hc => h (Except.ok.inj hc))
  | .ok _, .error _ => .isFalse (fun hc => Except.noConfusion hc)
  | .error _, .ok _ => .isFalse (fun hc => Except.noConfusion hc)
  | .error x, .error y =>
    if h : x = y then .isTrue (by rw [h]) else .isFalse (fun hc => h (Except.error.inj hc))

/-! ## `language_build.get_parser` -/

/-- The `PARSERS` dispatch table of `language_build.py`: file extension to
language tag (the parser object itself is external state we do not model). -/
def PARSERS : List (String × String) :=
  [(".c", "c"), (".cpp", "cpp"), (".py", "python"), (".js", "javascript"), (".java", "java")]

/-- Models the source function of `language_build.py` that looks up the extension; unsupported
extensions raise `ValueError(f"Unsupported file extension: {ext}")`,
modelled as an error value. -/
def getParser (file_extension : String) : Except String String :=
  match PARSERS.lookup file_extension with
  | some lang_name => .ok lang_name
  | none => .error ("Unsupported file extension: " ++ file_extension)

/-! ## `parse_file` -/

/-- One input file as seen by `parse_file`: its path, its extension
(`os.path.splitext(file_path)[1]`, computed by the external file-system
walk), and the outcome of reading and parsing its bytes with the external
tree-sitter parser — either the tree's root node or the text of the raised
exception. -/
structure FileInput where
  file_path : String
  ext : String
  parsed : Except String Node
deriving DecidableEq

/-- The per-file result dict: lists as produced by `parse_file`, with the
set-valued buckets converted by `sorted(list(...))`. -/
structure BucketLists where
  identifiers : List String
  literals : List String
  vars : List String
  comments : List String
  docstrings : List String
  functions : List String
  classes : List String
deriving DecidableEq

/-- Python `sorted(list(s))` on a name set. -/
def sortedNames (s : Finset String) : List String :=
  s.sort (· ≤ ·)

/-- The `result` dict built by `parse_file` (lines 239–247): sorted lists
for the four name sets, the sequence buckets verbatim. -/
def toResultLists (e : Elements) : BucketLists :=
  { identifiers := sortedNames e.identifiers,
    literals := e.literals,
    vars := sortedNames e.vars,
    comments := e.comments,
    docstrings := e.docstrings,
    functions := sortedNames e.functions,
    classes := sortedNames e.classes }

/-- The dictionary returned by `parse_file`: either
`{'success': True, 'language': ..., 'file_path': ..., 'elements': ...}` or
`{'success': False, 'file_path': ..., 'error': ...}`. -/
inductive FileResult where
  | ok (language : String) (file_path : String) (elements : BucketLists)
  | failed (file_path : String) (error : String)
deriving DecidableEq

/-- The `success` flag of a `parse_file` result. -/
def FileResult.success : FileResult → Bool
  | .ok _ _ _ => true
  | .failed _ _ => false

/-- Line 230: `self.elements = {k: set() if isinstance(v, set) else []
for k, v in self.elements.items()}` — a fresh empty bucket dict,
whatever was classified before. -/
def resetElements (_prior : Elements) : Elements :=
  emptyElements

/-- Models `RepoElementParser.parse_file`, with the parser instance's mutable
`self.elements` threaded explicitly: the returned pair is (result dict,
`self.elements` afterwards).  The whole body is a `try`/`except` that
converts any exception — unsupported extension from `get_parser`, a
read/parse failure, or an `AttributeError` inside `_extract_elements` —
into a `success=False` result with the stringified error. -/
def parse_file (self_elements : Elements) (f : FileInput) : FileResult × Elements :=
  match getParser f.ext with
  | .error e => (.failed f.file_path e, self_elements)
  | .ok lang_name =>
    match f.parsed with
    | .error e => (.failed f.file_path e, self_elements)
    | .ok root =>
      let st0 := resetElements self_elements
      let class_names := collectClassNames root
      match extractElements root [] class_names st0 with
      | .error (e, partial_st) => (.failed f.file_path e, partial_st)
      | .ok st => (.ok lang_name f.file_path (toResultLists st), st)

/-! ## The aggregation loop of `analyze_repo` (lines 282–315) -/

/-- Python `repo_elements[key].update(elements[key])` for the set buckets and
`repo_elements[key].extend(elements[key])` for the list buckets, over one
successful file's result dict. -/
def aggregateInto (repo : Elements) (bl : BucketLists) : Elements :=
  { identifiers := repo.identifiers ∪ bl.identifiers.toFinset,
    literals := repo.literals ++ bl.literals,
    vars := repo.vars ∪ bl.vars.toFinset,
    comments := repo.comments ++ bl.comments,
    docstrings := repo.docstrings ++ bl.docstrings,
    functions := repo.functions ∪ bl.functions.toFinset,
    classes := repo.classes ∪ bl.classes.toFinset }

/-- Accumulator of the `for file_path in source_files` loop:
`file_analyses` and `repo_elements`. -/
structure RepoAgg where
  file_analyses : List FileResult
  repo : Elements
deriving DecidableEq

/-- One iteration of the loop: parse the file; on success append the
result to `file_analyses` and aggregate its elements, otherwise leave both
untouched.  The parser instance state rides along. -/
def analyzeStep (acc : RepoAgg × Elements) (f : FileInput) : RepoAgg × Elements :=
  let (r, inst) := parse_file acc.2 f
  match r with
  | .ok lang path bl =>
    (⟨acc.1.file_analyses ++ [.ok lang path bl], aggregateInto acc.1.repo bl⟩, inst)
  | .failed _ _ => (acc.1, inst)

/-- The summary dict returned by `analyze_repo` on success (repository
cloning and file discovery are external; `files` is the list the
file-system walk produced, in processing order). -/
structure RepoOutcome where
  total_files : Nat
  analyzed_files : Nat
  repository_elements : BucketLists
  file_analyses : List FileResult
deriving DecidableEq

/-- The analysis and aggregation portion of `RepoElementParser.analyze_repo`:
run `parse_file` over every discovered file in order, keep the successful
results, merge their buckets, and finish with `sorted(list(...))` on the
repository-wide sets. -/
def analyze_files (files : List FileInput) (self_elements : Elements) :
    RepoOutcome × Elements :=
  let (agg, inst) := files.foldl analyzeStep (⟨[], emptyElements⟩, self_elements)
  (⟨files.length, agg.file_analyses.length, toResultLists agg.repo, agg.file_analyses⟩, inst)

/-! ## Spec-side definitions

The following definitions transcribe sentences of the specification and of
the claims (not the source); they exist to be compared with the behaviour
of the embedded code. -/

/-- The class/struct names contributed by one node itself (the non-recursive
part of `_collect_class_names`). -/
def ownClassNames (n : Node) : Finset String :=
  match n with
  | .mk ty _ ch =>
    if ty = "class_definition" ∨ ty = "class_declaration" then
      match ch.find? (fun c => c.type == "identifier") with
      | some c => {c.text}
      | none => ∅
    else if ty = "class_specifier" ∨ ty = "struct_specifier" then
      match ch.find? (fun c => c.type == "type_identifier") with
      | some c => {c.text}
      | none => ∅
    else ∅

mutual

/-- The pre-order sequence of stripped comment texts of a tree: for every
`comment`/`line_comment` node, in discovery order, the node text with
leading `#` characters and surrounding whitespace removed.  Used to state
what the comments bucket holds after a traversal. -/
def commentTexts (n : Node) : List String :=
  match n with
  | .mk ty tx ch =>
    (if ty = "comment" ∨ ty = "line_comment" then [stripComment tx] else []) ++
      commentTextsList ch

/-- Extends `commentTexts` over a list of sibling subtrees, in order. -/
def commentTextsList (l : List Node) : List String :=
  match l with
  | [] => []
  | c :: rest => commentTexts c ++ commentTextsList rest

end

/-- Claim C1's variable condition, transcribed from its words: not
denylisted, not in the ClassNameSet, the immediate parent is not a
function/class/constructor definition node, not a call expression, not
an import statement, and the node is not a direct child of a block that
contains sibling function/method definitions. -/
def claimVariableCond (n : Node) (ctx : Ctx) (class_names : Finset String) : Bool :=
  !is_std_lib_identifier n.text &&
  !(decide (n.text ∈ class_names)) &&
  (match parentNode ctx with
   | none => true
   | some p =>
     !(["function_definition", "class_definition", "constructor_declaration",
        "constructor_or_destructor_definition"].contains p.type) &&
     p.type != "call" &&
     !(["import_statement", "import_from_statement"].contains p.type) &&
     !(p.type == "block" &&
       p.children.any (fun c => c.type == "function_definition" || c.type == "method_definition")))

/-- The amended variable condition, matching what `_extract_elements`
actually does for an identifier node: additionally the name must not be a
reserved name (`__name__`, `__main__`, `__file__`, `this`, `super`), the
parent must not be a `method_definition` either, and the block/sibling
exclusion applies only under a `class_definition` grandparent with sibling
`method_definition`/`function_definition` nodes, or a `function_definition`
grandparent with sibling `method_definition` nodes. -/
def amendedVariableCond (n : Node) (ctx : Ctx) (class_names : Finset String) : Bool :=
  !is_std_lib_identifier n.text &&
  !(decide (n.text ∈ class_names)) &&
  !(reservedNames.contains n.text) &&
  (match parentNode ctx with
   | none => true
   | some p =>
     !(["function_definition", "class_definition", "constructor_declaration",
        "constructor_or_destructor_definition", "method_definition"].contains p.type) &&
     p.type != "call" &&
     !(["import_statement", "import_from_statement"].contains p.type)) &&
  (match parentNode ctx, grandNode ctx with
   | some p, some g =>
     !(p.type == "block" &&
       ((g.type == "class_definition" &&
         p.children.any (fun c => c.type == "method_definition" || c.type == "function_definition")) ||
        (g.type == "function_definition" &&
         p.children.any (fun c => c.type == "method_definition"))))
   | _, _ => true)

/-- Claim C2's positional docstring condition, transcribed from its words,
for a string node with ancestor context `ctx`: the parent is an expression
statement that is the first non-comment statement directly inside either
the module body or a block whose immediate parent is a class or function
definition. -/
def claimDocstringPos (ctx : Ctx) : Bool :=
  match ctx with
  | [] => false
  | (_, p) :: rest =>
    p.type == "expression_statement" &&
    (match rest with
     | [] => false
     | (pIdx, g) :: rest2 =>
       (g.type == "module" && (firstNonCommentIdx g.children == some pIdx)) ||
       (g.type == "block" &&
        (match rest2 with
         | [] => false
         | (_, gg) :: _ =>
           (gg.type == "class_definition" || gg.type == "function_definition") &&
           (firstNonCommentIdx g.children == some pIdx))))

/-! ## Spec-side descriptions of the aggregation, and the concrete trees and
file inputs used in concrete evaluations -/

/-- The result `parse_file` produces for a file, independent of any
instance state (justified by `parse_file_fst_indep`). -/
def parseOne (f : FileInput) : FileResult :=
  (parse_file emptyElements f).1

/-- The elements of a successful result. -/
def FileResult.elems? : FileResult → Option BucketLists
  | .ok _ _ bl => some bl
  | .failed _ _ => none

/-- The successful results of a sequence of files, in processing order. -/
def okResults (files : List FileInput) : List FileResult :=
  (files.map parseOne).filter (fun r => r.success)

/-- The element buckets of the successful files, in processing order. -/
def okElems (files : List FileInput) : List BucketLists :=
  (files.map parseOne).filterMap FileResult.elems?

/-- Union of a list of name sets. -/
def unionOf (l : List (Finset String)) : Finset String :=
  l.foldr (fun s acc => s ∪ acc) ∅

/-- A file with one class `Foo` and one assignment to `x`. -/
def treeFooX : Node :=
  .mk "module" ""
    [.mk "class_definition" "class Foo: pass" [.mk "identifier" "Foo" []],
     .mk "expression_statement" "x = 1" [.mk "assignment" "x = 1" [.mk "identifier" "x" []]]]

/-- The bucket state produced for `treeFooX`. -/
def elemsFooX : Elements :=
  { identifiers := {"x", "Foo"}, literals := [], vars := {"x"}, comments := [],
    docstrings := [], functions := ∅, classes := {"Foo"} }

/-- A class declaration whose name `print` is denylisted. -/
def classPrintNode : Node :=
  .mk "class_definition" "class print: pass" [.mk "identifier" "print" []]

/-- A file declaring a class whose name `print` is denylisted. -/
def treeClassPrint : Node :=
  .mk "module" "" [classPrintNode]

/-- The counterexample tree for C6: one `line_comment` whose marker is
`//`, as the C/C++/Java/JavaScript grammars produce. -/
def treeSlashComment : Node :=
  .mk "module" "" [.mk "line_comment" "// note" []]

/-- Two identical comments: both occurrences are kept, in order. -/
def treeTwoComments : Node :=
  .mk "module" "" [.mk "comment" "# a" [], .mk "comment" "# a" []]

/-- The reserved identifier `this` in a plain expression statement. -/
def thisIdent : Node := .mk "identifier" "this" []

/-- The parent expression statement of `thisIdent`. -/
def thisParent : Node := .mk "expression_statement" "this" [thisIdent]

/-- The identifier `x` inside an assignment. -/
def xIdent : Node := .mk "identifier" "x" []

/-- The parent assignment of `xIdent`. -/
def xParent : Node := .mk "assignment" "x = 1" [xIdent]

/-- An empty string literal (text `''`, stripped text empty). -/
def emptyStr : Node := .mk "string" "''" []

/-- The expression statement holding `emptyStr`. -/
def emptyStrParent : Node := .mk "expression_statement" "''" [emptyStr]

/-- A module whose single statement is the bare empty string. -/
def emptyStrModule : Node := .mk "module" "" [emptyStrParent]

/-- A docstring node (text `'doc'`). -/
def docStr : Node := .mk "string" "'doc'" []

/-- The expression statement holding `docStr`. -/
def docStmt : Node := .mk "expression_statement" "'doc'" [docStr]

/-- A module whose first statement is the bare string `'doc'`. -/
def docModule : Node := .mk "module" "" [docStmt]

/-- A module where the bare string is the second statement. -/
def docModule2 : Node :=
  .mk "module" "" [.mk "expression_statement" "pass" [], docStmt]

/-- A file whose read/parse raised an exception. -/
def badFile : FileInput := ⟨"bad.py", ".py", .error "boom"⟩

/-- A file with an extension no parser is registered for. -/
def weirdFile : FileInput := ⟨"weird.xyz", ".xyz", .error "ignored"⟩

/-- A parse tree whose root is a bare non-empty string: traversing it
raises `AttributeError` inside `_is_docstring(node.parent)`. -/
def rootStr : Node := .mk "string" "'x'" []

/-- The file carrying `rootStr`. -/
def strFile : FileInput := ⟨"s.py", ".py", .ok rootStr⟩

/-! ## Helper lemmas -/

theorem collectClassNames_eq (n : Node) :
    collectClassNames n = ownClassNames n ∪ collectClassNamesList n.children := by
  cases n with
  | mk ty tx ch =>
    rw [collectClassNames, ownClassNames]
    rfl

theorem ownClassNames_subset (n : Node) : ownClassNames n ⊆ collectClassNames n := by
  rw [collectClassNames_eq]; exact Finset.subset_union_left

theorem collectClassNamesList_subset (n : Node) :
    collectClassNamesList n.children ⊆ collectClassNames n := by
  rw [collectClassNames_eq]; exact Finset.subset_union_right

theorem collectClassNames_subset_list {c : Node} {l : List Node} (hc : c ∈ l) :
    collectClassNames c ⊆ collectClassNamesList l := by
  induction l with
  | nil => cases hc
  | cons a rest ih =>
    rw [collectClassNamesList]
    rcases List.mem_cons.mp hc with h | h
    · subst h; exact Finset.subset_union_left
    · exact (ih h).trans Finset.subset_union_right

theorem classBlockStep_preserves (n : Node) (st : Elements) :
    (classBlockStep n st).literals = st.literals ∧
    (classBlockStep n st).vars = st.vars ∧
    (classBlockStep n st).comments = st.comments ∧
    (classBlockStep n st).docstrings = st.docstrings ∧
    (classBlockStep n st).functions = st.functions := by
  unfold classBlockStep
  repeat' split
  all_goals simp

theorem classBlockStep_mem (n : Node) (st : Elements) (x : String) :
    (x ∈ (classBlockStep n st).classes →
      x ∈ st.classes ∨ (x ∈ ownClassNames n ∧ is_std_lib_identifier x = false)) ∧
    (x ∈ (classBlockStep n st).identifiers →
      x ∈ st.identifiers ∨ (x ∈ ownClassNames n ∧ is_std_lib_identifier x = false)) := by
  obtain ⟨ty, tx, ch⟩ := n
  unfold classBlockStep
  simp only [Node.type_mk, Node.children_mk]
  repeat' split
  all_goals simp_all [ownClassNames, Finset.mem_insert]
  all_goals aesop

theorem is_variable_true_facts {n : Node} {ctx : Ctx} {cn : Finset String}
    (h : is_variable n ctx cn = true) :
    is_std_lib_identifier n.text = false ∧ n.text ∉ cn := by
  unfold is_variable at h
  simp only [] at h
  simp_all

theorem chainStep_ok_spec (n : Node) (ctx : Ctx) (cn : Finset String) (st st' : Elements)
    (h : chainStep n ctx cn st = .ok st') :
    st'.classes = st.classes ∧
    st'.comments = st.comments ++
      (if n.type = "comment" ∨ n.type = "line_comment" then [stripComment n.text] else []) ∧
    (∀ x, x ∈ st'.vars → x ∈ st.vars ∨ (x = n.text ∧ is_variable n ctx cn = true)) ∧
    (∀ x, x ∈ st'.identifiers → x ∈ st.identifiers ∨ is_std_lib_identifier x = false) ∧
    (∀ x, x ∈ st'.functions → x ∈ st.functions ∨ is_std_lib_identifier x = false) := by
  unfold chainStep at h
  simp only [] at h
  repeat' split at h
  all_goals (try (injection h with h))
  all_goals (try subst h)
  all_goals simp_all [Finset.mem_insert]
  all_goals aesop

theorem extractStep_ok_spec (n : Node) (ctx : Ctx) (cn : Finset String) (st st' : Elements)
    (h : extractStep n ctx cn st = .ok st') :
    st'.comments = st.comments ++
      (if n.type = "comment" ∨ n.type = "line_comment" then [stripComment n.text] else []) ∧
    (∀ x, x ∈ st'.vars → x ∈ st.vars ∨ x ∉ cn) ∧
    (∀ x, x ∈ st'.classes → x ∈ st.classes ∨ x ∈ ownClassNames n) ∧
    (∀ x, is_std_lib_identifier x = true →
      (x ∈ st'.identifiers → x ∈ st.identifiers) ∧
      (x ∈ st'.vars → x ∈ st.vars) ∧
      (x ∈ st'.functions → x ∈ st.functions) ∧
      (x ∈ st'.classes → x ∈ st.classes)) := by
  unfold extractStep at h
  obtain ⟨hcl, hcm, hv, hid, hfn⟩ := chainStep_ok_spec _ _ _ _ _ h
  obtain ⟨hbl, hbv, hbc, hbd, hbf⟩ := classBlockStep_preserves n st
  refine ⟨by rw [hcm, hbc], ?_, ?_, ?_⟩
  · intro x hx
    rcases hv x hx with hx1 | ⟨hx1, hx2⟩
    · rw [hbv] at hx1; exact Or.inl hx1
    · subst hx1
      exact Or.inr (is_variable_true_facts hx2).2
  · intro x hx
    rw [hcl] at hx
    rcases (classBlockStep_mem n st x).1 hx with hx1 | ⟨hx1, _⟩
    · exact Or.inl hx1
    · exact Or.inr hx1
  · intro x hstd
    refine ⟨?_, ?_, ?_, ?_⟩
    · intro hx
      rcases hid x hx with hx1 | hx1
      · rcases (classBlockStep_mem n st x).2 hx1 with hx2 | ⟨_, hx2⟩
        · exact hx2
        · rw [hstd] at hx2; cases hx2
      · rw [hstd] at hx1; cases hx1
    · intro hx
      rcases hv x hx with hx1 | ⟨hx1, hx2⟩
      · rw [hbv] at hx1; exact hx1
      · subst hx1
        rw [(is_variable_true_facts hx2).1] at hstd; cases hstd
    · intro hx
      rcases hfn x hx with hx1 | hx1
      · rw [hbf] at hx1; exact hx1
      · rw [hstd] at hx1; cases hx1
    · intro hx
      rw [hcl] at hx
      rcases (classBlockStep_mem n st x).1 hx with hx1 | ⟨_, hx1⟩
      · exact hx1
      · rw [hstd] at hx1; cases hx1

mutual

/-- Invariant transport along a full traversal: comments grow by exactly
the pre-order comment texts; variables gain only names outside the
ClassNameSet; classes gain only names collected by pass 1 on the same
subtree; denylisted names are never added to any name bucket. -/
theorem extract_ok_spec (n : Node) (ctx : Ctx) (cn : Finset String) (st st' : Elements)
    (h : extractElements n ctx cn st = .ok st') :
    st'.comments = st.comments ++ commentTexts n ∧
    (∀ x, x ∈ st'.vars → x ∈ st.vars ∨ x ∉ cn) ∧
    (∀ x, x ∈ st'.classes → x ∈ st.classes ∨ x ∈ collectClassNames n) ∧
    (∀ x, is_std_lib_identifier x = true →
      (x ∈ st'.identifiers → x ∈ st.identifiers) ∧
      (x ∈ st'.vars → x ∈ st.vars) ∧
      (x ∈ st'.functions → x ∈ st.functions) ∧
      (x ∈ st'.classes → x ∈ st.classes)) := by
  rw [extractElements] at h
  rcases hs : extractStep n ctx cn st with e | st1 <;> rw [hs] at h
  · cases h
  · obtain ⟨hcm1, hv1, hcl1, hstd1⟩ := extractStep_ok_spec n ctx cn st st1 hs
    cases n with
    | mk ty tx ch =>
      obtain ⟨hcm2, hv2, hcl2, hstd2⟩ := extractChildren_ok_spec ch 0 (.mk ty tx ch) ctx cn st1 st' h
      refine ⟨?_, ?_, ?_, ?_⟩
      · rw [hcm2, hcm1, commentTexts]
        simp [List.append_assoc]
      · intro x hx
        rcases hv2 x hx with hx1 | hx1
        · exact hv1 x hx1
        · exact Or.inr hx1
      · intro x hx
        rcases hcl2 x hx with hx1 | hx1
        · rcases hcl1 x hx1 with hx2 | hx2
          · exact Or.inl hx2
          · exact Or.inr (ownClassNames_subset _ hx2)
        · exact Or.inr (collectClassNamesList_subset (Node.mk ty tx ch) hx1)
      · intro x hstd
        obtain ⟨ha1, ha2, ha3, ha4⟩ := hstd1 x hstd
        obtain ⟨hb1, hb2, hb3, hb4⟩ := hstd2 x hstd
        exact ⟨fun hx => ha1 (hb1 hx), fun hx => ha2 (hb2 hx),
               fun hx => ha3 (hb3 hx), fun hx => ha4 (hb4 hx)⟩

/-- Version of `extract_ok_spec` for the child loop, with `collectClassNamesList` and
`commentTextsList` describing the contributions of the sibling subtrees. -/
theorem extractChildren_ok_spec (l : List Node) (i : Nat) (par : Node) (ctx : Ctx)
    (cn : Finset String) (st st' : Elements)
    (h : extractChildren l i par ctx cn st = .ok st') :
    st'.comments = st.comments ++ commentTextsList l ∧
    (∀ x, x ∈ st'.vars → x ∈ st.vars ∨ x ∉ cn) ∧
    (∀ x, x ∈ st'.classes → x ∈ st.classes ∨ x ∈ collectClassNamesList l) ∧
    (∀ x, is_std_lib_identifier x = true →
      (x ∈ st'.identifiers → x ∈ st.identifiers) ∧
      (x ∈ st'.vars → x ∈ st.vars) ∧
      (x ∈ st'.functions → x ∈ st.functions) ∧
      (x ∈ st'.classes → x ∈ st.classes)) := by
  cases l with
  | nil =>
    rw [extractChildren] at h
    cases h
    refine ⟨by simp [commentTextsList], ?_, ?_, ?_⟩
    · intro x hx; exact Or.inl hx
    · intro x hx; exact Or.inl hx
    · intro x _; exact ⟨id, id, id, id⟩
  | cons c rest =>
    rw [extractChildren] at h
    rcases hs : extractElements c ((i, par) :: ctx) cn st with e | st2 <;> rw [hs] at h
    · cases h
    · obtain ⟨hcm1, hv1, hcl1, hstd1⟩ := extract_ok_spec c ((i, par) :: ctx) cn st st2 hs
      obtain ⟨hcm2, hv2, hcl2, hstd2⟩ := extractChildren_ok_spec rest (i + 1) par ctx cn st2 st' h
      refine ⟨?_, ?_, ?_, ?_⟩
      · rw [hcm2, hcm1, commentTextsList, List.append_assoc]
      · intro x hx
        rcases hv2 x hx with hx1 | hx1
        · exact hv1 x hx1
        · exact Or.inr hx1
      · intro x hx
        rw [collectClassNamesList]
        rcases hcl2 x hx with hx1 | hx1
        · rcases hcl1 x hx1 with hx2 | hx2
          · exact Or.inl hx2
          · exact Or.inr (Finset.mem_union_left _ hx2)
        · exact Or.inr (Finset.mem_union_right _ hx1)
      · intro x hstd
        obtain ⟨ha1, ha2, ha3, ha4⟩ := hstd1 x hstd
        obtain ⟨hb1, hb2, hb3, hb4⟩ := hstd2 x hstd
        exact ⟨fun hx => ha1 (hb1 hx), fun hx => ha2 (hb2 hx),
               fun hx => ha3 (hb3 hx), fun hx => ha4 (hb4 hx)⟩

end

theorem classBlockStep_eq_self (n : Node) (st : Elements)
    (h1 : n.type ≠ "class_definition") (h2 : n.type ≠ "class_declaration")
    (h3 : n.type ≠ "class_specifier") (h4 : n.type ≠ "struct_specifier") :
    classBlockStep n st = st := by
  unfold classBlockStep
  simp [h1, h2, h3, h4]

theorem is_variable_false_of_std {n : Node} {ctx : Ctx} {cn : Finset String}
    (hstd : is_std_lib_identifier n.text = true) :
    is_variable n ctx cn = false := by
  by_cases hty : n.type = "identifier"
  · unfold is_variable
    rw [if_neg (by simp [hty] : ¬ n.type ≠ "identifier")]
    simp [hstd]
  · unfold is_variable
    rw [if_pos hty]

/-- The identifier branch of `chainStep`, isolated: beyond this `if`, the
body is the branch of the source verbatim. -/
theorem chainStep_identifier (n : Node) (ctx : Ctx) (cn : Finset String) (st : Elements)
    (h : n.type = "identifier") :
    chainStep n ctx cn st =
      (if is_std_lib_identifier n.text = true then Except.ok st
       else
         let st1 := if reservedNames.contains n.text = true then st
                    else { st with identifiers := insert n.text st.identifiers }
         if is_variable n ctx cn = true then Except.ok { st1 with vars := insert n.text st1.vars }
         else Except.ok st1) := by
  unfold chainStep
  rw [if_pos h]

/-- The identifier branch of `_extract_elements`: the only buckets it can
touch are `identifiers` and `variables`, and the name goes to `variables`
exactly when `_is_variable` holds. -/
theorem extractStep_identifier_spec (n : Node) (ctx : Ctx) (cn : Finset String) (st : Elements)
    (h : n.type = "identifier") :
    ∃ st', extractStep n ctx cn st = .ok st' ∧
      st'.vars = (if is_variable n ctx cn then insert n.text st.vars else st.vars) ∧
      st'.classes = st.classes ∧ st'.literals = st.literals ∧ st'.comments = st.comments ∧
      st'.docstrings = st.docstrings ∧ st'.functions = st.functions := by
  have hcb : classBlockStep n st = st :=
    classBlockStep_eq_self n st (by simp [h]) (by simp [h]) (by simp [h]) (by simp [h])
  unfold extractStep
  rw [hcb, chainStep_identifier n ctx cn st h]
  by_cases hstd : is_std_lib_identifier n.text = true
  · refine ⟨st, by simp [hstd], ?_, rfl, rfl, rfl, rfl, rfl⟩
    rw [is_variable_false_of_std hstd]
    simp
  · by_cases hv : is_variable n ctx cn = true
    · by_cases hr : n.text ∈ reservedNames
      · refine ⟨{ st with vars := insert n.text st.vars }, by simp [hstd, hr, hv], ?_, rfl, rfl,
          rfl, rfl, rfl⟩
        simp [hv]
      · refine ⟨{ st with identifiers := insert n.text st.identifiers,
                          vars := insert n.text st.vars }, by simp [hstd, hr, hv], ?_, rfl, rfl,
          rfl, rfl, rfl⟩
        simp [hv]
    · rw [Bool.not_eq_true] at hv
      by_cases hr : n.text ∈ reservedNames
      · refine ⟨st, by simp [hstd, hr, hv], ?_, rfl, rfl, rfl, rfl, rfl⟩
        simp [hv]
      · refine ⟨{ st with identifiers := insert n.text st.identifiers },
          by simp [hstd, hr, hv], ?_, rfl, rfl, rfl, rfl, rfl⟩
        simp [hv]

/-- The string branch of `_extract_elements` for a node that has a parent:
empty stripped text is skipped, otherwise `_is_docstring(node.parent)`
routes the stripped text to exactly one of `docstrings`/`literals`. -/
theorem extractStep_string_spec (n : Node) (i : Nat) (p : Node) (rest : Ctx)
    (cn : Finset String) (st : Elements)
    (h : n.type = "string_literal" ∨ n.type = "string") :
    extractStep n ((i, p) :: rest) cn st = .ok (
      if stripQuotes n.text = "" then st
      else if is_docstring p rest then
        { st with docstrings := st.docstrings ++ [stripQuotes n.text] }
      else { st with literals := st.literals ++ [stripQuotes n.text] }) := by
  have hcb : classBlockStep n st = st := by
    rcases h with h | h <;>
      exact classBlockStep_eq_self n st (by simp [h]) (by simp [h]) (by simp [h]) (by simp [h])
  have hid : ¬ n.type = "identifier" := by rcases h with h | h <;> simp [h]
  unfold extractStep chainStep
  rw [hcb, if_neg hid, if_pos h]
  simp only []
  split_ifs <;> rfl

theorem is_variable_eq_amended (n : Node) (ctx : Ctx) (cn : Finset String)
    (h : n.type = "identifier") :
    is_variable n ctx cn = amendedVariableCond n ctx cn := by
  unfold is_variable amendedVariableCond
  rw [if_neg (by simp [h] : ¬ n.type ≠ "identifier")]
  rcases ctx with _ | ⟨⟨i, p⟩, _ | ⟨⟨j, g⟩, rest2⟩⟩
  all_goals
    simp only [parentNode, grandNode, optTypeIs, optTypeMem, blockWithChild,
      List.head?_cons, List.drop_succ_cons, List.drop_zero, List.head?_nil,
      Option.map_some', Option.map_none']
  all_goals simp
  all_goals
    (rw [Bool.eq_iff_iff]
     simp only [Bool.and_eq_true, Bool.or_eq_true, Bool.not_eq_true', Bool.not_eq_true,
       Bool.not_eq_false, decide_eq_true_eq, decide_eq_false_iff_not, bne_iff_ne, ne_eq,
       beq_iff_eq, beq_eq_false_iff_ne, List.any_eq_true, List.any_eq_false, not_exists]
     first
       | tauto
       | aesop)

theorem is_docstring_eq_claim (i : Nat) (p : Node) (rest : Ctx) :
    claimDocstringPos ((i, p) :: rest) = is_docstring p rest := by
  unfold claimDocstringPos is_docstring
  by_cases hp : p.type = "expression_statement"
  · rw [if_neg (by simp [hp] : ¬ p.type ≠ "expression_statement")]
    rcases rest with _ | ⟨⟨j, g⟩, rest2⟩
    · simp [hp]
    · rcases rest2 with _ | ⟨⟨k, gg⟩, rest3⟩ <;>
        by_cases hg1 : g.type = "module" <;>
          by_cases hg2 : g.type = "block" <;>
            (simp_all; try aesop)
  · rw [if_pos (by simp [hp] : p.type ≠ "expression_statement")]
    simp [hp]






/-- Result independence: `parse_file` does not depend on the parser instance's
previous `self.elements` (it is reset before any bucket is touched). -/
theorem parse_file_fst_indep (e1 e2 : Elements) (f : FileInput) :
    (parse_file e1 f).1 = (parse_file e2 f).1 := by
  unfold parse_file
  cases hg : getParser f.ext with
  | error e => rfl
  | ok lang =>
    cases hp : f.parsed with
    | error e => rfl
    | ok root => rfl

theorem analyzeStep_eq (fa : List FileResult) (repo inst : Elements) (f : FileInput) :
    analyzeStep (⟨fa, repo⟩, inst) f =
      ((match parseOne f with
        | .ok lang path bl => ⟨fa ++ [.ok lang path bl], aggregateInto repo bl⟩
        | .failed _ _ => ⟨fa, repo⟩ : RepoAgg), (parse_file inst f).2) := by
  unfold analyzeStep
  have h1 : parse_file inst f = ((parse_file inst f).1, (parse_file inst f).2) := rfl
  rw [h1]
  have h2 : (parse_file inst f).1 = parseOne f := parse_file_fst_indep inst emptyElements f
  rw [h2]
  cases parseOne f <;> rfl

theorem foldl_analyzeStep (files : List FileInput) (fa : List FileResult)
    (repo inst : Elements) :
    (files.foldl analyzeStep (⟨fa, repo⟩, inst)).1 =
      ⟨fa ++ okResults files, (okElems files).foldl aggregateInto repo⟩ := by
  induction files generalizing fa repo inst with
  | nil => simp [okResults, okElems]
  | cons f rest ih =>
    rw [List.foldl_cons, analyzeStep_eq]
    cases hr : parseOne f with
    | ok lang path bl =>
      rw [ih]
      have hok : okResults (f :: rest) = FileResult.ok lang path bl :: okResults rest := by
        simp [okResults, hr, FileResult.success]
      have hel : okElems (f :: rest) = bl :: okElems rest := by
        simp [okElems, hr, FileResult.elems?]
      rw [hok, hel]
      simp
    | failed path err =>
      rw [ih]
      have hok : okResults (f :: rest) = okResults rest := by
        simp [okResults, hr, FileResult.success]
      have hel : okElems (f :: rest) = okElems rest := by
        simp [okElems, hr, FileResult.elems?]
      rw [hok, hel]

theorem foldl_aggregateInto_fields (bls : List BucketLists) (repo : Elements) :
    (bls.foldl aggregateInto repo).identifiers =
      repo.identifiers ∪ unionOf (bls.map (fun b => b.identifiers.toFinset)) ∧
    (bls.foldl aggregateInto repo).vars =
      repo.vars ∪ unionOf (bls.map (fun b => b.vars.toFinset)) ∧
    (bls.foldl aggregateInto repo).functions =
      repo.functions ∪ unionOf (bls.map (fun b => b.functions.toFinset)) ∧
    (bls.foldl aggregateInto repo).classes =
      repo.classes ∪ unionOf (bls.map (fun b => b.classes.toFinset)) ∧
    (bls.foldl aggregateInto repo).literals =
      repo.literals ++ (bls.map (fun b => b.literals)).flatten ∧
    (bls.foldl aggregateInto repo).comments =
      repo.comments ++ (bls.map (fun b => b.comments)).flatten ∧
    (bls.foldl aggregateInto repo).docstrings =
      repo.docstrings ++ (bls.map (fun b => b.docstrings)).flatten := by
  induction bls generalizing repo with
  | nil => simp [unionOf]
  | cons b rest ih =>
    rw [List.foldl_cons]
    obtain ⟨i1, i2, i3, i4, i5, i6, i7⟩ := ih (aggregateInto repo b)
    rw [i1, i2, i3, i4, i5, i6, i7]
    unfold aggregateInto unionOf
    simp [Finset.union_assoc]

/-! ## Claim theorems -/

/-- C3: for every file classified, no name is in both the `classes` set and
the `variables` set of that file's ElementBucket after classification
completes (pass 2 run from the root with the ClassNameSet collected by
pass 1 on the same tree and an empty bucket state). -/
theorem C3_classes_vars_disjoint (root : Node) (st : Elements)
    (h : extractResult root = .ok st) :
    st.classes ∩ st.vars = ∅ := by
  unfold extractResult at h
  obtain ⟨-, hv, hcl, -⟩ := extract_ok_spec root [] (collectClassNames root) emptyElements st h
  refine Finset.eq_empty_iff_forall_not_mem.mpr fun x hx => ?_
  rw [Finset.mem_inter] at hx
  rcases hcl x hx.1 with h1 | h1
  · simp [emptyElements] at h1
  · rcases hv x hx.2 with h2 | h2
    · simp [emptyElements] at h2
    · exact h2 h1



theorem C3_classes_vars_disjoint_witness :
    extractResult treeFooX = .ok elemsFooX ∧ elemsFooX.classes ∩ elemsFooX.vars = ∅ :=
  ⟨by decide, C3_classes_vars_disjoint treeFooX elemsFooX (by decide)⟩

/-- C4: no denylisted built-in/standard-library name ever appears in the
`identifiers`, `variables`, `functions` or `classes` buckets of a
classified file; and (Scenario B) a file using only the denylisted name
`print` yields all four name-based buckets empty. -/
theorem C4_denylist_excluded :
    (∀ (root : Node) (st : Elements), extractResult root = .ok st →
      ∀ x, is_std_lib_identifier x = true →
        x ∉ st.identifiers ∧ x ∉ st.vars ∧ x ∉ st.functions ∧ x ∉ st.classes) ∧
    (extractResult
        (.mk "module" ""
          [.mk "expression_statement" "print()"
            [.mk "call" "print()" [.mk "identifier" "print" []]]]) =
      .ok emptyElements) := by
  constructor
  · intro root st h x hstd
    unfold extractResult at h
    obtain ⟨-, -, -, hs⟩ := extract_ok_spec root [] (collectClassNames root) emptyElements st h
    obtain ⟨h1, h2, h3, h4⟩ := hs x hstd
    refine ⟨fun hx => ?_, fun hx => ?_, fun hx => ?_, fun hx => ?_⟩
    · simpa [emptyElements] using h1 hx
    · simpa [emptyElements] using h2 hx
    · simpa [emptyElements] using h3 hx
    · simpa [emptyElements] using h4 hx
  · decide

theorem C4_denylist_excluded_witness :
    extractResult treeFooX = .ok elemsFooX ∧ is_std_lib_identifier "print" = true ∧
      "print" ∉ elemsFooX.identifiers ∧ "print" ∉ elemsFooX.vars ∧
      "print" ∉ elemsFooX.functions ∧ "print" ∉ elemsFooX.classes :=
  ⟨by decide, by decide,
   (C4_denylist_excluded.1 treeFooX elemsFooX (by decide) "print" (by decide)).1,
   (C4_denylist_excluded.1 treeFooX elemsFooX (by decide) "print" (by decide)).2.1,
   (C4_denylist_excluded.1 treeFooX elemsFooX (by decide) "print" (by decide)).2.2.1,
   (C4_denylist_excluded.1 treeFooX elemsFooX (by decide) "print" (by decide)).2.2.2⟩

/-- C10: pass 1 applies no denylist filtering — a declared class name that
is denylisted still enters the ClassNameSet — while pass 2 keeps every
denylisted name (class-name occurrences included) out of the `variables`,
`classes` and `identifiers` buckets. -/
theorem C10_collector_no_denylist :
    (∀ (n : Node) (c : Node),
      (n.type = "class_definition" ∨ n.type = "class_declaration") →
      n.children.find? (fun c => c.type == "identifier") = some c →
      c.text ∈ collectClassNames n) ∧
    (∀ (root : Node) (st : Elements) (x : String),
      extractResult root = .ok st → is_std_lib_identifier x = true →
      x ∉ st.vars ∧ x ∉ st.classes ∧ x ∉ st.identifiers) := by
  constructor
  · intro n c hty hfind
    obtain ⟨ty, tx, ch⟩ := n
    simp only [Node.type_mk] at hty
    simp only [Node.children_mk] at hfind
    rw [collectClassNames]
    simp only [if_pos hty, hfind]
    exact Finset.mem_union_left _ (Finset.mem_singleton_self _)
  · intro root st x h hstd
    unfold extractResult at h
    obtain ⟨-, -, -, hs⟩ := extract_ok_spec root [] (collectClassNames root) emptyElements st h
    obtain ⟨h1, h2, h3, h4⟩ := hs x hstd
    refine ⟨fun hx => ?_, fun hx => ?_, fun hx => ?_⟩
    · simpa [emptyElements] using h2 hx
    · simpa [emptyElements] using h4 hx
    · simpa [emptyElements] using h1 hx



theorem C10_collector_no_denylist_witness :
    ("print" ∈ collectClassNames classPrintNode) ∧
    (extractResult treeClassPrint = .ok emptyElements ∧
      "print" ∉ emptyElements.vars ∧ "print" ∉ emptyElements.classes ∧
      "print" ∉ emptyElements.identifiers) :=
  ⟨C10_collector_no_denylist.1 classPrintNode
      (.mk "identifier" "print" []) (by decide) (by decide),
   by decide,
   (C10_collector_no_denylist.2 treeClassPrint emptyElements "print" (by decide) (by decide)).1,
   (C10_collector_no_denylist.2 treeClassPrint emptyElements "print" (by decide) (by decide)).2.1,
   (C10_collector_no_denylist.2 treeClassPrint emptyElements "print" (by decide) (by decide)).2.2⟩


/-- C6 counterexample: the code strips only leading `#` characters, so for
a `line_comment` node with text `// note` the appended comment text still
starts with the `//` marker, contradicting "the leading comment marker is
stripped" for every supported language. -/
theorem C6_counterexample :
    extractResult treeSlashComment = .ok { emptyElements with comments := ["// note"] } ∧
    ("// note" : String) ≠ "note" := by
  constructor
  · decide
  · decide

/-- C6 amended: for every comment node visited, the text with leading `#`
characters and surrounding whitespace stripped (markers of languages whose
comments do not start with `#`, such as `//`, are left in place) is
appended to `comments`, with no deduplication, every occurrence kept, in
pre-order discovery order. -/
theorem C6_comments_appended (n : Node) (ctx : Ctx) (cn : Finset String) (st st' : Elements)
    (h : extractElements n ctx cn st = .ok st') :
    st'.comments = st.comments ++ commentTexts n :=
  (extract_ok_spec n ctx cn st st' h).1


theorem C6_comments_appended_witness :
    extractElements treeTwoComments [] ∅ emptyElements =
      .ok { emptyElements with comments := ["a", "a"] } ∧
    ({ emptyElements with comments := ["a", "a"] } : Elements).comments =
      emptyElements.comments ++ commentTexts treeTwoComments :=
  ⟨by decide,
   C6_comments_appended treeTwoComments [] ∅ emptyElements
     { emptyElements with comments := ["a", "a"] } (by decide)⟩



/-- C1 counterexample: the identifier `this` satisfies every condition the
claim lists — not denylisted, not in the ClassNameSet, its parent is a
plain expression statement (not a definition, call or import), and it is
not inside a block with function/method siblings — yet pass 2 does not add
it to `variables`, because `_is_variable` additionally rejects the
reserved names `__name__`, `__main__`, `__file__`, `this`, `super`. -/
theorem C1_counterexample :
    claimVariableCond thisIdent [(0, thisParent)] ∅ = true ∧
    extractStep thisIdent [(0, thisParent)] ∅ emptyElements = .ok emptyElements ∧
    thisIdent.text ∉ emptyElements.vars :=
  ⟨by decide, by decide, by decide⟩

/-- C1 amended: for every identifier node visited in pass 2, its text is
added to `variables` iff it is not denylisted, not in the ClassNameSet,
not a reserved name (`__name__`, `__main__`, `__file__`, `this`,
`super`), its immediate parent is not a function/class/method/constructor
definition node, not a call expression, not an import statement, and it
is not a direct child of a block whose enclosing definition is a class
containing sibling method/function definitions or a function containing
sibling method definitions. -/
theorem C1_variable_amended (n : Node) (ctx : Ctx) (cn : Finset String) (st : Elements)
    (h : n.type = "identifier") :
    ∃ st', extractStep n ctx cn st = .ok st' ∧
      st'.vars = (if amendedVariableCond n ctx cn then insert n.text st.vars else st.vars) := by
  obtain ⟨st', h1, h2, -, -, -, -, -⟩ := extractStep_identifier_spec n ctx cn st h
  refine ⟨st', h1, ?_⟩
  rw [h2, is_variable_eq_amended n ctx cn h]



theorem C1_variable_amended_witness :
    xIdent.type = "identifier" ∧
    (∃ st', extractStep xIdent [(0, xParent)] ∅ emptyElements = .ok st' ∧
      st'.vars = (if amendedVariableCond xIdent [(0, xParent)] ∅ then
        insert xIdent.text emptyElements.vars else emptyElements.vars)) :=
  ⟨by decide, C1_variable_amended xIdent [(0, xParent)] ∅ emptyElements (by decide)⟩




/-- C2 counterexample: an empty string in perfect docstring position — its
parent is an expression statement that is the first non-comment statement
of the module body — is classified as nothing at all (its stripped text is
empty), so position alone is not equivalent to being classified as a
docstring. -/
theorem C2_counterexample :
    claimDocstringPos [(0, emptyStrParent), (0, emptyStrModule)] = true ∧
    extractStep emptyStr [(0, emptyStrParent), (0, emptyStrModule)] ∅ emptyElements =
      .ok emptyElements ∧
    emptyElements.docstrings = [] :=
  ⟨by decide, by decide, rfl⟩

/-- C2 amended: a visited string node with a parent is appended to
`docstrings` iff its stripped text is non-empty and its parent is an
expression statement that is the first non-comment statement directly
inside the module body or inside a block whose immediate parent is a
class or function definition; with non-empty stripped text and the
positional condition false it is appended to `literals` instead. -/
theorem C2_docstring_amended (n : Node) (i : Nat) (p : Node) (rest : Ctx)
    (cn : Finset String) (st st' : Elements)
    (h : n.type = "string_literal" ∨ n.type = "string")
    (hstep : extractStep n ((i, p) :: rest) cn st = .ok st') :
    (st'.docstrings = st.docstrings ++ [stripQuotes n.text] ↔
      (stripQuotes n.text ≠ "" ∧ claimDocstringPos ((i, p) :: rest) = true)) ∧
    (st'.literals = st.literals ++ [stripQuotes n.text] ↔
      (stripQuotes n.text ≠ "" ∧ claimDocstringPos ((i, p) :: rest) = false)) := by
  rw [extractStep_string_spec n i p rest cn st h] at hstep
  rw [is_docstring_eq_claim i p rest]
  injection hstep with hstep
  subst hstep
  by_cases he : stripQuotes n.text = ""
  · simp [he]
  · by_cases hd : is_docstring p rest = true
    · simp [he, hd]
    · simp [he, hd]





theorem C2_docstring_amended_witness :
    (docStr.type = "string_literal" ∨ docStr.type = "string") ∧
    extractStep docStr [(0, docStmt), (0, docModule)] ∅ emptyElements =
      .ok { emptyElements with docstrings := ["doc"] } ∧
    (({ emptyElements with docstrings := ["doc"] } : Elements).docstrings =
        emptyElements.docstrings ++ [stripQuotes docStr.text] ↔
      (stripQuotes docStr.text ≠ "" ∧
        claimDocstringPos [(0, docStmt), (0, docModule)] = true)) ∧
    extractStep docStr [(1, docStmt), (1, docModule2)] ∅ emptyElements =
      .ok { emptyElements with literals := ["doc"] } ∧
    (({ emptyElements with literals := ["doc"] } : Elements).literals =
        emptyElements.literals ++ [stripQuotes docStr.text] ↔
      (stripQuotes docStr.text ≠ "" ∧
        claimDocstringPos [(1, docStmt), (1, docModule2)] = false)) :=
  ⟨by decide, by decide,
   (C2_docstring_amended docStr 0 docStmt [(0, docModule)] ∅ emptyElements
      { emptyElements with docstrings := ["doc"] } (by decide) (by decide)).1,
   by decide,
   (C2_docstring_amended docStr 1 docStmt [(1, docModule2)] ∅ emptyElements
      { emptyElements with literals := ["doc"] } (by decide) (by decide)).2⟩

/-- C5: every visited string node that has a parent and whose stripped
text is non-empty is appended to exactly one of `docstrings`/`literals`
(each alternative leaves the other sequence untouched); a string whose
stripped text is empty is appended to neither. -/
theorem C5_string_exactly_one (n : Node) (i : Nat) (p : Node) (rest : Ctx)
    (cn : Finset String) (st : Elements)
    (h : n.type = "string_literal" ∨ n.type = "string") :
    ∃ st', extractStep n ((i, p) :: rest) cn st = .ok st' ∧
      (stripQuotes n.text ≠ "" →
        (st'.docstrings = st.docstrings ++ [stripQuotes n.text] ∧ st'.literals = st.literals) ∨
        (st'.literals = st.literals ++ [stripQuotes n.text] ∧
          st'.docstrings = st.docstrings)) ∧
      (stripQuotes n.text = "" →
        st'.docstrings = st.docstrings ∧ st'.literals = st.literals) := by
  refine ⟨_, extractStep_string_spec n i p rest cn st h, ?_, ?_⟩
  · intro he
    by_cases hd : is_docstring p rest = true
    · left
      simp [he, hd]
    · right
      simp [he, hd]
  · intro he
    simp [he]

theorem C5_string_exactly_one_witness :
    (docStr.type = "string_literal" ∨ docStr.type = "string") ∧
    (∃ st', extractStep docStr [(0, docStmt), (0, docModule)] ∅ emptyElements = .ok st' ∧
      (stripQuotes docStr.text ≠ "" →
        (st'.docstrings = emptyElements.docstrings ++ [stripQuotes docStr.text] ∧
          st'.literals = emptyElements.literals) ∨
        (st'.literals = emptyElements.literals ++ [stripQuotes docStr.text] ∧
          st'.docstrings = emptyElements.docstrings)) ∧
      (stripQuotes docStr.text = "" →
        st'.docstrings = emptyElements.docstrings ∧ st'.literals = emptyElements.literals)) :=
  ⟨by decide, C5_string_exactly_one docStr 0 docStmt [(0, docModule)] ∅ emptyElements (by decide)⟩

theorem analyze_files_spec (files : List FileInput) (prior : Elements) :
    (analyze_files files prior).1 =
      ⟨files.length, (okResults files).length,
       toResultLists ((okElems files).foldl aggregateInto emptyElements),
       okResults files⟩ := by
  unfold analyze_files
  have hsplit : files.foldl analyzeStep (⟨[], emptyElements⟩, prior) =
      ((files.foldl analyzeStep (⟨[], emptyElements⟩, prior)).1,
       (files.foldl analyzeStep (⟨[], emptyElements⟩, prior)).2) := rfl
  rw [hsplit, foldl_analyzeStep]
  simp

theorem okResults_append (l1 l2 : List FileInput) :
    okResults (l1 ++ l2) = okResults l1 ++ okResults l2 := by
  simp [okResults, List.filter_append]

theorem okElems_append (l1 l2 : List FileInput) :
    okElems (l1 ++ l2) = okElems l1 ++ okElems l2 := by
  simp [okElems, List.filterMap_append]

theorem okResults_cons_failed (f : FileInput) (rest : List FileInput)
    (h : (parseOne f).success = false) :
    okResults (f :: rest) = okResults rest := by
  simp [okResults, List.filter_cons, h]

theorem okElems_cons_failed (f : FileInput) (rest : List FileInput)
    (h : (parseOne f).success = false) :
    okElems (f :: rest) = okElems rest := by
  have : (parseOne f).elems? = none := by
    cases hf : parseOne f with
    | ok lang path bl => rw [hf] at h; cases h
    | failed path e => rfl
  simp [okElems, List.filterMap_cons, this]

/-- C9: classifying the same input twice yields identical ElementBucket
contents — the result of `parse_file` does not depend on what the same
parser instance classified before (its buckets are reset first), so a
second run on the identical input returns the identical result. -/
theorem C9_classification_idempotent (prior1 prior2 : Elements) (f : FileInput) :
    (parse_file prior1 f).1 = (parse_file prior2 f).1 ∧
    (parse_file ((parse_file prior1 f).2) f).1 = (parse_file prior1 f).1 :=
  ⟨parse_file_fst_indep prior1 prior2 f, parse_file_fst_indep _ prior1 f⟩

/-- C7: the repository-level name sets equal the unions of the
corresponding per-file sets of the successfully parsed files; the
repository-level sequences are the concatenations of the per-file
sequences in file-processing order; the repository comments length is the
sum of per-file comment counts; failed files contribute nothing (only the
successful results are kept in `file_analyses` and aggregated). -/
theorem C7_aggregation_correct (files : List FileInput) (prior : Elements) :
    ((analyze_files files prior).1.repository_elements.identifiers.toFinset =
      unionOf ((okElems files).map (fun b => b.identifiers.toFinset))) ∧
    ((analyze_files files prior).1.repository_elements.vars.toFinset =
      unionOf ((okElems files).map (fun b => b.vars.toFinset))) ∧
    ((analyze_files files prior).1.repository_elements.functions.toFinset =
      unionOf ((okElems files).map (fun b => b.functions.toFinset))) ∧
    ((analyze_files files prior).1.repository_elements.classes.toFinset =
      unionOf ((okElems files).map (fun b => b.classes.toFinset))) ∧
    ((analyze_files files prior).1.repository_elements.literals =
      ((okElems files).map (fun b => b.literals)).flatten) ∧
    ((analyze_files files prior).1.repository_elements.comments =
      ((okElems files).map (fun b => b.comments)).flatten) ∧
    ((analyze_files files prior).1.repository_elements.docstrings =
      ((okElems files).map (fun b => b.docstrings)).flatten) ∧
    ((analyze_files files prior).1.repository_elements.comments.length =
      ((okElems files).map (fun b => b.comments.length)).sum) ∧
    ((analyze_files files prior).1.file_analyses = okResults files) ∧
    ((analyze_files files prior).1.analyzed_files = (okResults files).length) ∧
    ((analyze_files files prior).1.total_files = files.length) := by
  rw [analyze_files_spec]
  obtain ⟨a1, a2, a3, a4, a5, a6, a7⟩ :=
    foldl_aggregateInto_fields (okElems files) emptyElements
  refine ⟨?_, ?_, ?_, ?_, ?_, ?_, ?_, ?_, rfl, rfl, rfl⟩
  all_goals simp only [toResultLists, sortedNames]
  · rw [Finset.sort_toFinset, a1]
    simp [emptyElements]
  · rw [Finset.sort_toFinset, a2]
    simp [emptyElements]
  · rw [Finset.sort_toFinset, a3]
    simp [emptyElements]
  · rw [Finset.sort_toFinset, a4]
    simp [emptyElements]
  · rw [a5]
    simp [emptyElements]
  · rw [a6]
    simp [emptyElements]
  · rw [a7]
    simp [emptyElements]
  · rw [a6]
    simp [emptyElements, List.length_flatten, List.map_map, Function.comp_def]

/-- C8: a failure in parser lookup, reading/parsing, or tree traversal is
caught by `parse_file` and converted to a `success=False` result carrying
the error text; a failed file changes nothing in the aggregation of the
other files except the total count; and a class declaration with no name
child is skipped silently by both the Collector and the Classifier. -/
theorem C8_error_isolation :
    (∀ (prior : Elements) (f : FileInput) (e : String),
      getParser f.ext = .error e →
      (parse_file prior f).1 = .failed f.file_path e ∧
      ((parse_file prior f).1).success = false) ∧
    (∀ (prior : Elements) (f : FileInput) (lang e : String),
      getParser f.ext = .ok lang → f.parsed = .error e →
      (parse_file prior f).1 = .failed f.file_path e ∧
      ((parse_file prior f).1).success = false) ∧
    (∀ (prior : Elements) (f : FileInput) (lang : String) (root : Node)
      (e : String) (stE : Elements),
      getParser f.ext = .ok lang → f.parsed = .ok root →
      extractElements root [] (collectClassNames root) emptyElements = .error (e, stE) →
      (parse_file prior f).1 = .failed f.file_path e ∧
      ((parse_file prior f).1).success = false) ∧
    (∀ (fs1 fs2 : List FileInput) (bad : FileInput) (prior : Elements),
      (parseOne bad).success = false →
      (analyze_files (fs1 ++ bad :: fs2) prior).1.file_analyses =
        (analyze_files (fs1 ++ fs2) prior).1.file_analyses ∧
      (analyze_files (fs1 ++ bad :: fs2) prior).1.repository_elements =
        (analyze_files (fs1 ++ fs2) prior).1.repository_elements ∧
      (analyze_files (fs1 ++ bad :: fs2) prior).1.analyzed_files =
        (analyze_files (fs1 ++ fs2) prior).1.analyzed_files ∧
      (analyze_files (fs1 ++ bad :: fs2) prior).1.total_files =
        (analyze_files (fs1 ++ fs2) prior).1.total_files + 1) ∧
    (∀ (tx : String) (ch : List Node) (ctx : Ctx) (cn : Finset String) (st : Elements),
      ch.find? (fun c => c.type == "identifier") = none →
      extractStep (.mk "class_definition" tx ch) ctx cn st = .ok st ∧
      collectClassNames (.mk "class_definition" tx ch) = collectClassNamesList ch) := by
  refine ⟨?_, ?_, ?_, ?_, ?_⟩
  · intro prior f e h
    unfold parse_file
    rw [h]
    exact ⟨rfl, rfl⟩
  · intro prior f lang e h1 h2
    unfold parse_file
    rw [h1, h2]
    exact ⟨rfl, rfl⟩
  · intro prior f lang root e stE h1 h2 h3
    unfold parse_file
    rw [h1, h2, show resetElements prior = emptyElements from rfl]
    simp [h3, FileResult.success]
  · intro fs1 fs2 bad prior hbad
    rw [analyze_files_spec, analyze_files_spec]
    have hres : okResults (fs1 ++ bad :: fs2) = okResults (fs1 ++ fs2) := by
      rw [okResults_append, okResults_append, okResults_cons_failed bad fs2 hbad]
    have hel : okElems (fs1 ++ bad :: fs2) = okElems (fs1 ++ fs2) := by
      rw [okElems_append, okElems_append, okElems_cons_failed bad fs2 hbad]
    refine ⟨by rw [hres], by rw [hel], by rw [hres], ?_⟩
    simp only [RepoOutcome.mk.injEq, List.length_append, List.length_cons]
    omega
  · intro tx ch ctx cn st hfind
    constructor
    · unfold extractStep classBlockStep chainStep
      simp [hfind]
    · rw [collectClassNames]
      simp [hfind]





theorem C8_error_isolation_witness :
    (getParser weirdFile.ext = .error "Unsupported file extension: .xyz" ∧
      (parse_file emptyElements weirdFile).1 =
        .failed weirdFile.file_path "Unsupported file extension: .xyz" ∧
      ((parse_file emptyElements weirdFile).1).success = false) ∧
    (getParser badFile.ext = .ok "python" ∧ badFile.parsed = .error "boom" ∧
      (parse_file emptyElements badFile).1 = .failed badFile.file_path "boom" ∧
      ((parse_file emptyElements badFile).1).success = false) ∧
    (extractElements rootStr [] (collectClassNames rootStr) emptyElements =
        .error ("AttributeError: 'NoneType' object has no attribute 'type'", emptyElements) ∧
      (parse_file emptyElements strFile).1 =
        .failed strFile.file_path "AttributeError: 'NoneType' object has no attribute 'type'" ∧
      ((parse_file emptyElements strFile).1).success = false) ∧
    ((parseOne badFile).success = false ∧
      (analyze_files [badFile] emptyElements).1.file_analyses =
        (analyze_files [] emptyElements).1.file_analyses ∧
      (analyze_files [badFile] emptyElements).1.total_files =
        (analyze_files [] emptyElements).1.total_files + 1) ∧
    (([] : List Node).find? (fun c => c.type == "identifier") = none ∧
      extractStep (.mk "class_definition" "class" []) [] ∅ emptyElements = .ok emptyElements ∧
      collectClassNames (.mk "class_definition" "class" []) = collectClassNamesList []) := by
  refine ⟨⟨by decide, ?_, ?_⟩, ⟨by decide, by decide, ?_, ?_⟩, ⟨by decide, ?_, ?_⟩,
    ⟨by decide, ?_, ?_⟩, ⟨by decide, ?_, ?_⟩⟩
  · exact (C8_error_isolation.1 emptyElements weirdFile
      "Unsupported file extension: .xyz" (by decide)).1
  · exact (C8_error_isolation.1 emptyElements weirdFile
      "Unsupported file extension: .xyz" (by decide)).2
  · exact (C8_error_isolation.2.1 emptyElements badFile "python" "boom"
      (by decide) (by decide)).1
  · exact (C8_error_isolation.2.1 emptyElements badFile "python" "boom"
      (by decide) (by decide)).2
  · exact (C8_error_isolation.2.2.1 emptyElements strFile "python" rootStr
      "AttributeError: 'NoneType' object has no attribute 'type'" emptyElements
      (by decide) (by decide) (by decide)).1
  · exact (C8_error_isolation.2.2.1 emptyElements strFile "python" rootStr
      "AttributeError: 'NoneType' object has no attribute 'type'" emptyElements
      (by decide) (by decide) (by decide)).2
  · exact (C8_error_isolation.2.2.2.1 [] [] badFile emptyElements (by decide)).1
  · exact (C8_error_isolation.2.2.2.1 [] [] badFile emptyElements (by decide)).2.2.2
  · exact (C8_error_isolation.2.2.2.2 "class" [] [] ∅ emptyElements (by decide)).1
  · exact (C8_error_isolation.2.2.2.2 "class" [] [] ∅ emptyElements (by decide)).2

end CloudLLM
